import Mathlib

/-!
Shallow embedding of the cost-aggregation core of the gcp-billing-watcher
extension (class `BillingService` in `src/core/billing_service.ts`, variant
with `datasetId` and `strictSsl` options).

The two network round trips (the table-listing GET and the query POST) are
modelled as explicit inputs of type `Except String _`: an `Except.error`
models a failed authenticated request, an `Except.ok` carries the decoded
response body.  The mutable instance fields (`lastCost`, `cachedTableName`,
`projectId`, ...) are threaded as an explicit `BillingState`.  JavaScript
numbers produced by `parseFloat` are modelled exactly by `JSNum`
(NaN / signed infinity / a rational value); decimal literals are read
exactly instead of being rounded to binary floating point, which is
irrelevant to the claims because both sides of every comparison use the
same reading.
-/

namespace BillingWatcher

/-- A UTC instant as far as the code observes it: the values of
`getUTCFullYear()` and `getUTCMonth()` (the latter is the 0-based month
index of JavaScript). -/
structure DateUTC where
  utcFullYear : Int
  utcMonth : Nat
deriving DecidableEq, Repr

/-- A JavaScript number as produced by `parseFloat`: NaN, an infinity with a
sign, or a (finite) value, kept as an exact rational. -/
inductive JSNum where
  | nan : JSNum
  | inf : (positive : Bool) → JSNum
  | num : (q : Rat) → JSNum
deriving DecidableEq, Repr

/-- The `BillingCost` record of the source (the cost summary). -/
structure BillingCost where
  currency : String
  amount : JSNum
  lastMonthAmount : JSNum
  last3MonthsAmount : JSNum
  yearlyAmount : JSNum
  lastUpdated : DateUTC
deriving DecidableEq, Repr

/-- `{ tableReference: { tableId } }` of the table-listing response. -/
structure TableReference where
  tableId : String
deriving DecidableEq, Repr

/-- The decoded body of the table-listing GET
(`BigQueryTablesResponse`): `{ tables?: [...] }`. -/
structure TableListing where
  tables : Option (List TableReference)
deriving DecidableEq, Repr

/-- One field cell `{ v: string | null }` of a query-response row. -/
structure FieldCell where
  v : Option String
deriving DecidableEq, Repr

/-- One row `{ f: [...] }` of the query response. -/
structure QueryRow where
  f : List FieldCell
deriving DecidableEq, Repr

/-- The decoded body of the query POST (`BigQueryQueryResponse`):
`{ rows?: [...] }`. -/
structure QueryResponse where
  rows : Option (List QueryRow)
deriving DecidableEq, Repr

/-- The private instance fields of `BillingService`.  `authScopes` and
`authKeyFilename` model the `GoogleAuth` options fixed by the constructor. -/
structure BillingState where
  projectId : String
  datasetId : String
  strictSsl : Bool
  authScopes : List String
  authKeyFilename : Option String
  lastCost : Option BillingCost
  cachedTableName : Option String
deriving DecidableEq, Repr

/-- The constructor of `BillingService`: records the configuration, sets up
the auth options, and starts with both caches empty.  In the source
`datasetId` defaults to `"billing_export"` and `strictSsl` to `true`;
callers of the model pass them explicitly. -/
def mkBillingService (projectId : String) (datasetId : String)
    (credentialsPath : Option String) (strictSsl : Bool) : BillingState :=
  { projectId := projectId
    datasetId := datasetId
    strictSsl := strictSsl
    authScopes := ["https://www.googleapis.com/auth/cloud-platform"]
    authKeyFilename := credentialsPath
    lastCost := none
    cachedTableName := none }

/-- JavaScript `s.startsWith(p)`: `p` is a prefix of the character sequence
of `s`. -/
def jsStartsWith (s p : String) : Bool :=
  p.data.isPrefixOf s.data

/-- Digit list to the natural number it denotes in base 10. -/
def digitsToNat (ds : List Char) : Nat :=
  ds.foldl (fun a c => 10 * a + (c.toNat - 48)) 0

/-- The exponent part accepted by `parseFloat` after the `e`/`E` marker: an
optional sign followed by digits.  When no digit follows, the exponent
marker is not part of the accepted prefix and contributes nothing. -/
def parseFloatExponent (cs : List Char) : Int :=
  let signed : Bool × List Char :=
    match cs with
    | '+' :: t => (false, t)
    | '-' :: t => (true, t)
    | t => (false, t)
  let ds := signed.2.takeWhile Char.isDigit
  if ds.isEmpty then 0
  else if signed.1 then -(digitsToNat ds : Int) else (digitsToNat ds : Int)

/-- JavaScript `parseFloat`: skip leading whitespace, read an optional sign,
then the longest prefix that is `Infinity` or a decimal literal
(digits, an optional fraction, an optional exponent); anything else gives
NaN.  The numeric value of the accepted literal is returned exactly. -/
def parseFloat (s : String) : JSNum :=
  let cs := s.data.dropWhile Char.isWhitespace
  let signed : Bool × List Char :=
    match cs with
    | '+' :: t => (false, t)
    | '-' :: t => (true, t)
    | t => (false, t)
  let neg := signed.1
  let cs1 := signed.2
  if "Infinity".data.isPrefixOf cs1 then JSNum.inf (!neg)
  else
    let intDigits := cs1.takeWhile Char.isDigit
    let rest1 := cs1.dropWhile Char.isDigit
    let fracAndRest : List Char × List Char :=
      match rest1 with
      | '.' :: t => (t.takeWhile Char.isDigit, t.dropWhile Char.isDigit)
      | t => ([], t)
    let fracDigits := fracAndRest.1
    if intDigits.isEmpty && fracDigits.isEmpty then JSNum.nan
    else
      let e : Int :=
        match fracAndRest.2 with
        | 'e' :: t => parseFloatExponent t
        | 'E' :: t => parseFloatExponent t
        | _ => 0
      let mantissa : Nat := digitsToNat (intDigits ++ fracDigits)
      let signedMantissa : Int := if neg then -(mantissa : Int) else (mantissa : Int)
      let scaledNum : Int :=
        if 0 ≤ e then signedMantissa * ((10 ^ e.toNat : Nat) : Int) else signedMantissa
      let den : Nat :=
        if 0 ≤ e then 10 ^ fracDigits.length
        else 10 ^ fracDigits.length * 10 ^ (-e).toNat
      JSNum.num (mkRat scaledNum den)

/-- JavaScript `String(month).padStart(2, "0")`. -/
def padStart2 (s : String) : String :=
  String.mk (List.replicate (2 - s.length) '0') ++ s

/-- The `(getFullYear(), getMonth())` pair of
`new Date(yearArg, monthIndex, 1)`: a `yearArg` between 0 and 99 is read as
1900 + `yearArg`, and the month index is normalized into 0..11 by floor
division (`/` and `%` on `Int` are Euclidean division, which agrees with
floor division for the positive divisor 12). -/
def jsDateMonthsTotal (yearArg monthIndex : Int) : Int :=
  (if 0 ≤ yearArg ∧ yearArg ≤ 99 then yearArg + 1900 else yearArg) * 12 + monthIndex

/-- The year and 0-based month read back from the normalized date. -/
def jsDateYearMonth (yearArg monthIndex : Int) : Int × Int :=
  (jsDateMonthsTotal yearArg monthIndex / 12, jsDateMonthsTotal yearArg monthIndex % 12)

/-- The `currentMonth` period key computed by `fetchCurrentMonthCost`. -/
def currentMonthKey (now : DateUTC) : String :=
  toString now.utcFullYear ++ padStart2 (toString (now.utcMonth + 1))

/-- The `lastMonth` period key computed by `fetchCurrentMonthCost` from
`new Date(year, month - 2, 1)` where `month` is the 1-based current month. -/
def lastMonthKey (now : DateUTC) : String :=
  toString (jsDateYearMonth now.utcFullYear ((now.utcMonth : Int) + 1 - 2)).1 ++
    padStart2 (toString ((jsDateYearMonth now.utcFullYear ((now.utcMonth : Int) + 1 - 2)).2 + 1))

/-- The `threeMonthsAgo` period key computed by `fetchCurrentMonthCost` from
`new Date(year, month - 4, 1)`. -/
def threeMonthsAgoKey (now : DateUTC) : String :=
  toString (jsDateYearMonth now.utcFullYear ((now.utcMonth : Int) + 1 - 4)).1 ++
    padStart2 (toString ((jsDateYearMonth now.utcFullYear ((now.utcMonth : Int) + 1 - 4)).2 + 1))

/-- The options object handed to the authenticated request helper.
`relaxedSslAgent` models the presence of
`agent: new https.Agent({ rejectUnauthorized: false })`. -/
structure RequestOptions where
  url : String
  method : String
  hasBody : Bool
  relaxedSslAgent : Bool
deriving DecidableEq, Repr

/-- `getRequestOptions` of the source: attaches the relaxed-certificate
agent when `strictSsl` is disabled, otherwise returns the options
untouched. -/
def getRequestOptions (s : BillingState) (options : RequestOptions) : RequestOptions :=
  if !s.strictSsl then { options with relaxedSslAgent := true } else options

/-- The URL of the table-listing GET. -/
def listTablesUrl (s : BillingState) : String :=
  "https://bigquery.googleapis.com/bigquery/v2/projects/" ++ s.projectId ++
    "/datasets/" ++ s.datasetId ++ "/tables"

/-- The URL of the query POST. -/
def queryUrl (s : BillingState) : String :=
  "https://bigquery.googleapis.com/bigquery/v2/projects/" ++ s.projectId ++ "/queries"

/-- The request options of the table-listing GET exactly as built at its
call site in `discoverBillingTableName`: the inline object is passed
through `getRequestOptions`. -/
def listTablesRequestOptions (s : BillingState) : RequestOptions :=
  getRequestOptions s
    { url := listTablesUrl s, method := "GET", hasBody := false, relaxedSslAgent := false }

/-- The request options of the query POST exactly as built at its call site
in `fetchCurrentMonthCost`: the inline object is passed to
`client.request` directly, without `getRequestOptions`. -/
def queryRequestOptions (s : BillingState) : RequestOptions :=
  { url := queryUrl s, method := "POST", hasBody := true, relaxedSslAgent := false }

/-- The predicate of the `find` call in `discoverBillingTableName`: the
table id begins with the per-account or the per-resource export naming
scheme. -/
def isBillingExportTable (t : TableReference) : Bool :=
  jsStartsWith t.tableId "gcp_billing_export_v1" ||
    jsStartsWith t.tableId "gcp_billing_export_resource_v1"

/-- The error message of the empty-dataset failure. -/
def noTablesFoundMsg (s : BillingState) : String :=
  "No tables found in " ++ s.datasetId ++ " dataset"

/-- The error message of the no-matching-table failure. -/
def noBillingTableMsg (s : BillingState) : String :=
  "No billing export table found in " ++ s.datasetId ++ " (pattern: gcp_billing_export_*)"

/-- The error used when the auth client cannot be obtained. -/
def authErrorMsg : String := "Failed to get auth client"

/-- Outcome of one call to `discoverBillingTableName`: the returned or
thrown result, the instance state afterwards, and whether a table-listing
request was issued on this call. -/
structure DiscoverResult where
  result : Except String String
  state : BillingState
  issuedListTables : Bool

/-- `discoverBillingTableName` of the source.  A cached name is returned
without any network traffic; otherwise the auth client is obtained, the
dataset tables are listed, and the first table in listing order whose id
matches either export prefix is memoized and returned.  An absent or empty
table array, or the absence of a matching table, throws. -/
def discoverBillingTableName (s : BillingState) (authOk : Bool)
    (listing : Except String TableListing) : DiscoverResult :=
  match s.cachedTableName with
  | some cached => ⟨Except.ok cached, s, false⟩
  | none =>
    if authOk then
      match listing with
      | Except.error e => ⟨Except.error e, s, true⟩
      | Except.ok data =>
        match data.tables with
        | none => ⟨Except.error (noTablesFoundMsg s), s, true⟩
        | some ts =>
          if ts.isEmpty then ⟨Except.error (noTablesFoundMsg s), s, true⟩
          else
            match ts.find? isBillingExportTable with
            | none => ⟨Except.error (noBillingTableMsg s), s, true⟩
            | some t => ⟨Except.ok t.tableId, { s with cachedTableName := some t.tableId }, true⟩
    else ⟨Except.error authErrorMsg, s, false⟩

/-- The environment of one `fetchCurrentMonthCost` call: whether the auth
client can be obtained, and the results of the two network calls when they
are issued. -/
structure FetchEnv where
  authOk : Bool
  listing : Except String TableListing
  queryResult : Except String QueryResponse

/-- The all-zero fallback summary built when the query returns no usable
row. -/
def defaultBillingCost (now : DateUTC) : BillingCost :=
  { currency := "USD"
    amount := JSNum.num 0
    lastMonthAmount := JSNum.num 0
    last3MonthsAmount := JSNum.num 0
    yearlyAmount := JSNum.num 0
    lastUpdated := now }

/-- `row.f[i].v` with the out-of-range behaviour of JavaScript indexing
folded into `none`; the code only reads slots below the checked length. -/
def cellValue (row : QueryRow) (i : Nat) : Option String :=
  (row.f.getD i ⟨none⟩).v

/-- `fetchCurrentMonthCost` of the source.  Obtains the auth client,
resolves the table name (possibly issuing the listing GET), issues the
query POST, and maps the first row into a `BillingCost` when it has at
least five field slots — null amount slots default to the string "0" and a
null currency slot to "USD".  Otherwise the all-zero fallback is produced.
Either successful outcome overwrites `lastCost`; every failure is
rethrown with the state reached so far. -/
def fetchCurrentMonthCost (s : BillingState) (now : DateUTC) (env : FetchEnv) :
    Except String BillingCost × BillingState :=
  if env.authOk then
    match discoverBillingTableName s env.authOk env.listing with
    | ⟨Except.error e, s1, _⟩ => (Except.error e, s1)
    | ⟨Except.ok _tableName, s1, _⟩ =>
      match env.queryResult with
      | Except.error e => (Except.error e, s1)
      | Except.ok data =>
        match data.rows with
        | some (row :: _) =>
          if 5 ≤ row.f.length then
            let cost : BillingCost :=
              { amount := parseFloat ((cellValue row 0).getD "0")
                lastMonthAmount := parseFloat ((cellValue row 1).getD "0")
                last3MonthsAmount := parseFloat ((cellValue row 2).getD "0")
                yearlyAmount := parseFloat ((cellValue row 3).getD "0")
                currency := (cellValue row 4).getD "USD"
                lastUpdated := now }
            (Except.ok cost, { s1 with lastCost := some cost })
          else
            (Except.ok (defaultBillingCost now), { s1 with lastCost := some (defaultBillingCost now) })
        | _ =>
          (Except.ok (defaultBillingCost now), { s1 with lastCost := some (defaultBillingCost now) })
  else (Except.error authErrorMsg, s)

/-- `getCachedCost` of the source: a pure read of `lastCost`. -/
def getCachedCost (s : BillingState) : Option BillingCost :=
  s.lastCost

/-- `setProjectId` of the source: overwrites `projectId` only. -/
def setProjectId (s : BillingState) (projectId : String) : BillingState :=
  { s with projectId := projectId }

/-- The previous calendar month of a (year, 1-based month) pair; the
specification-level description of what the period-key arithmetic should
produce. -/
def predYM (p : Int × Nat) : Int × Nat :=
  if p.2 ≤ 1 then (p.1 - 1, 12) else (p.1, p.2 - 1)

/-- The `YYYYMM` rendering of a (year, 1-based month) pair: the decimal
year followed by the zero-padded two-digit month — the string encoding of
year times 100 plus month. -/
def periodKey (y : Int) (m : Nat) : String :=
  toString y ++ padStart2 (toString m)

/-! ## Helper lemmas -/

/-- Parsing the fallback string "0" yields the number 0. -/
lemma parseFloat_zero : parseFloat "0" = JSNum.num 0 := by decide

/-- `discoverBillingTableName` never touches the summary cache. -/
lemma discover_preserves_lastCost (s : BillingState) (authOk : Bool)
    (listing : Except String TableListing) :
    (discoverBillingTableName s authOk listing).state.lastCost = s.lastCost := by
  unfold discoverBillingTableName
  repeat' split
  all_goals rfl

/-! ## Claims -/

/-- C8: `setProjectId` updates only the active project identifier: the
memoized table identifier, the cached summary and every other client field
are unchanged. -/
theorem claim_C8 (s : BillingState) (pid : String) :
    (setProjectId s pid).projectId = pid ∧
    (setProjectId s pid).cachedTableName = s.cachedTableName ∧
    (setProjectId s pid).lastCost = s.lastCost ∧
    (setProjectId s pid).datasetId = s.datasetId ∧
    (setProjectId s pid).strictSsl = s.strictSsl ∧
    (setProjectId s pid).authScopes = s.authScopes ∧
    (setProjectId s pid).authKeyFilename = s.authKeyFilename :=
  ⟨rfl, rfl, rfl, rfl, rfl, rfl, rfl⟩

/-- C9: evaluation of the two request-option builders at a client with
strict transport security disabled.  The table-listing GET does carry the
relaxed-certificate agent, but the query POST is built without
`getRequestOptions` and therefore does not, contradicting the claim (and
the changelog entry for the `strictSsl` setting); with the default strict
configuration neither call carries it, as claimed. -/
theorem claim_C9 :
    (listTablesRequestOptions (mkBillingService "my-project" "billing_export" none false)).relaxedSslAgent
      = true ∧
    (queryRequestOptions (mkBillingService "my-project" "billing_export" none false)).relaxedSslAgent
      = false ∧
    (listTablesRequestOptions (mkBillingService "my-project" "billing_export" none true)).relaxedSslAgent
      = false ∧
    (queryRequestOptions (mkBillingService "my-project" "billing_export" none true)).relaxedSslAgent
      = false := by
  refine ⟨rfl, rfl, rfl, rfl⟩

/-- C4: on a fresh resolution, `discoverBillingTableName` returns the first
table in listing order matching either export prefix, and fails with the
NotFound errors exactly when the listing has zero tables or no table
matches. -/
theorem claim_C4 (s : BillingState) (hcache : s.cachedTableName = none)
    (tables : Option (List TableReference)) :
    (∀ ts t, tables = some ts → ts.find? isBillingExportTable = some t →
      (discoverBillingTableName s true (Except.ok ⟨tables⟩)).result = Except.ok t.tableId) ∧
    ((tables = none ∨ tables = some []) →
      (discoverBillingTableName s true (Except.ok ⟨tables⟩)).result
        = Except.error (noTablesFoundMsg s)) ∧
    (∀ ts, tables = some ts → ts ≠ [] → ts.find? isBillingExportTable = none →
      (discoverBillingTableName s true (Except.ok ⟨tables⟩)).result
        = Except.error (noBillingTableMsg s)) ∧
    (∀ e, (discoverBillingTableName s true (Except.ok ⟨tables⟩)).result = Except.error e →
      tables = none ∨ tables = some [] ∨
        ∃ ts, tables = some ts ∧ ts.find? isBillingExportTable = none) := by
  refine ⟨?_, ?_, ?_, ?_⟩
  · intro ts t hts hfind
    subst hts
    cases ts with
    | nil => simp at hfind
    | cons a l => simp [discoverBillingTableName, hcache, hfind]
  · rintro (h | h) <;> subst h <;> simp [discoverBillingTableName, hcache]
  · intro ts hts hne hfind
    subst hts
    cases ts with
    | nil => exact absurd rfl hne
    | cons a l => simp [discoverBillingTableName, hcache, hfind]
  · intro e he
    cases tables with
    | none => exact Or.inl rfl
    | some ts =>
      cases ts with
      | nil => exact Or.inr (Or.inl rfl)
      | cons a l =>
        refine Or.inr (Or.inr ⟨a :: l, rfl, ?_⟩)
        cases hfind : (a :: l).find? isBillingExportTable with
        | none => rfl
        | some t => simp [discoverBillingTableName, hcache, hfind] at he

/-- C4 witness: a concrete fresh client and a three-table listing whose
first matching table (the per-resource one, at index 1) is returned. -/
theorem claim_C4_witness :
    (discoverBillingTableName (mkBillingService "p" "billing_export" none true) true
        (Except.ok ⟨some [⟨"zz"⟩, ⟨"gcp_billing_export_resource_v1_B"⟩,
          ⟨"gcp_billing_export_v1_A"⟩]⟩)).result
      = Except.ok "gcp_billing_export_resource_v1_B" :=
  (claim_C4 (mkBillingService "p" "billing_export" none true) rfl
      (some [⟨"zz"⟩, ⟨"gcp_billing_export_resource_v1_B"⟩, ⟨"gcp_billing_export_v1_A"⟩])).1
    [⟨"zz"⟩, ⟨"gcp_billing_export_resource_v1_B"⟩, ⟨"gcp_billing_export_v1_A"⟩]
    ⟨"gcp_billing_export_resource_v1_B"⟩ rfl (by decide)

/-- C5: a successful resolution memoizes the name, and every later call on
the resulting state returns the identical value with the state unchanged
and without issuing a listing request. -/
theorem claim_C5 (s : BillingState) (authOk : Bool) (listing : Except String TableListing)
    (name : String) (s2 : BillingState) (issued : Bool)
    (h : discoverBillingTableName s authOk listing = ⟨Except.ok name, s2, issued⟩) :
    s2.cachedTableName = some name ∧
    ∀ (authOk2 : Bool) (listing2 : Except String TableListing),
      discoverBillingTableName s2 authOk2 listing2 = ⟨Except.ok name, s2, false⟩ := by
  have hc : s2.cachedTableName = some name := by
    unfold discoverBillingTableName at h
    repeat' split at h
    all_goals simp_all [DiscoverResult.mk.injEq]
    obtain ⟨h1, h2, h3⟩ := h
    subst h1
    subst h2
    rfl
  exact ⟨hc, fun a2 l2 => by simp [discoverBillingTableName, hc]⟩

/-- C5 witness: resolving against a two-table listing memoizes the export
table, and a second call on the cached state returns it even though the
supplied listing now fails, with no listing call issued. -/
theorem claim_C5_witness :
    discoverBillingTableName
        ({ mkBillingService "p" "billing_export" none true with
            cachedTableName := some "gcp_billing_export_v1_A" }) false (Except.error "down")
      = ⟨Except.ok "gcp_billing_export_v1_A",
          { mkBillingService "p" "billing_export" none true with
            cachedTableName := some "gcp_billing_export_v1_A" }, false⟩ :=
  (claim_C5 (mkBillingService "p" "billing_export" none true) true
      (Except.ok ⟨some [⟨"other"⟩, ⟨"gcp_billing_export_v1_A"⟩]⟩)
      "gcp_billing_export_v1_A" _ true rfl).2 false (Except.error "down")

/-- C7: the cached-summary accessor is a pure read of the summary cache: it
is absent on a freshly constructed client, and after a successful fetch it
is exactly the summary that fetch returned (the fallback summary
included). -/
theorem claim_C7 :
    (∀ pid ds cp ssl, getCachedCost (mkBillingService pid ds cp ssl) = none) ∧
    (∀ s, getCachedCost s = s.lastCost) ∧
    (∀ s now env c s2, fetchCurrentMonthCost s now env = (Except.ok c, s2) →
      getCachedCost s2 = some c) := by
  refine ⟨fun _ _ _ _ => rfl, fun _ => rfl, ?_⟩
  intro s now env c s2 h
  unfold fetchCurrentMonthCost at h
  repeat' split at h
  all_goals simp_all [Prod.mk.injEq, getCachedCost]
  all_goals obtain ⟨h1, h2⟩ := h
  all_goals subst h1
  all_goals subst h2
  all_goals rfl

/-- C7 witness: after a concrete successful fetch that hits the zero-row
fallback, the accessor returns exactly the summary that fetch produced. -/
theorem claim_C7_witness :
    getCachedCost
        ({ mkBillingService "p" "billing_export" none true with
            lastCost := some (defaultBillingCost ⟨2025, 0⟩),
            cachedTableName := some "gcp_billing_export_v1_A" })
      = some (defaultBillingCost ⟨2025, 0⟩) :=
  claim_C7.2.2 (mkBillingService "p" "billing_export" none true) ⟨2025, 0⟩
    ⟨true, Except.ok ⟨some [⟨"gcp_billing_export_v1_A"⟩]⟩, Except.ok ⟨none⟩⟩
    (defaultBillingCost ⟨2025, 0⟩) _ rfl

/-- C10: a failed fetch leaves the cached last-known summary untouched:
the accessor reads the same value before and after the failing call.  (The
memoized table name may have been set by a resolution that succeeded
before the failure; the claim notes this and the theorem does not restrict
it.) -/
theorem claim_C10 (s : BillingState) (now : DateUTC) (env : FetchEnv) (e : String)
    (s2 : BillingState) (h : fetchCurrentMonthCost s now env = (Except.error e, s2)) :
    getCachedCost s2 = getCachedCost s ∧ s2.lastCost = s.lastCost := by
  suffices hl : s2.lastCost = s.lastCost from ⟨hl, hl⟩
  unfold fetchCurrentMonthCost at h
  by_cases ha : env.authOk = true
  · simp only [ha, if_true] at h
    have hp := discover_preserves_lastCost s true env.listing
    rcases hd : discoverBillingTableName s true env.listing with ⟨res, s1, b⟩
    rw [hd] at h hp
    cases res with
    | error e1 =>
      simp only [Prod.mk.injEq] at h
      obtain ⟨-, h2⟩ := h
      exact h2 ▸ hp
    | ok tname =>
      cases hq : env.queryResult with
      | error e1 =>
        rw [hq] at h
        simp only [Prod.mk.injEq] at h
        obtain ⟨-, h2⟩ := h
        exact h2 ▸ hp
      | ok data =>
        rw [hq] at h
        dsimp only at h
        cases hr : data.rows with
        | none => rw [hr] at h; simp at h
        | some rows =>
          rw [hr] at h
          cases rows with
          | nil => simp at h
          | cons row rest =>
            by_cases h5 : 5 ≤ row.f.length
            · simp [h5] at h
            · simp [h5] at h
  · simp only [Bool.not_eq_true] at ha
    simp only [ha, Bool.false_eq_true, if_false, Prod.mk.injEq] at h
    obtain ⟨-, h2⟩ := h
    exact h2 ▸ rfl

/-- C10 witness: a fetch that fails at the listing call leaves the cache
read unchanged on a concrete fresh client. -/
theorem claim_C10_witness :
    getCachedCost (mkBillingService "p" "billing_export" none true)
        = getCachedCost (mkBillingService "p" "billing_export" none true) ∧
      (mkBillingService "p" "billing_export" none true).lastCost
        = (mkBillingService "p" "billing_export" none true).lastCost :=
  claim_C10 (mkBillingService "p" "billing_export" none true) ⟨2025, 0⟩
    ⟨true, Except.error "boom", Except.ok ⟨none⟩⟩ "boom"
    (mkBillingService "p" "billing_export" none true) rfl

/-- C1: when the query response has a first row with five string-valued
field slots, the fetch returns the summary whose four amounts are the
parsed values of slots 0 to 3 in order and whose currency is the value of
slot 4. -/
theorem claim_C1 (s : BillingState) (tname : String) (now : DateUTC)
    (listing : Except String TableListing) (v0 v1 v2 v3 v4 : String)
    (moreCells : List FieldCell) (moreRows : List QueryRow)
    (hcache : s.cachedTableName = some tname) :
    (fetchCurrentMonthCost s now
        ⟨true, listing,
          Except.ok ⟨some (⟨[⟨some v0⟩, ⟨some v1⟩, ⟨some v2⟩, ⟨some v3⟩, ⟨some v4⟩]
            ++ moreCells⟩ :: moreRows)⟩⟩).1 =
      Except.ok
        { currency := v4, amount := parseFloat v0, lastMonthAmount := parseFloat v1,
          last3MonthsAmount := parseFloat v2, yearlyAmount := parseFloat v3,
          lastUpdated := now } := by
  have hd : discoverBillingTableName s true listing = ⟨Except.ok tname, s, false⟩ := by
    unfold discoverBillingTableName
    rw [hcache]
  have hlen : 5 ≤ (([⟨some v0⟩, ⟨some v1⟩, ⟨some v2⟩, ⟨some v3⟩, ⟨some v4⟩] : List FieldCell)
      ++ moreCells).length := by
    simp [List.length_append]
  unfold fetchCurrentMonthCost
  dsimp only
  rw [hd]
  dsimp only
  rw [if_pos hlen]
  rfl

/-- C1 witness: a concrete five-field row is mapped slotwise. -/
theorem claim_C1_witness :
    (fetchCurrentMonthCost
        ({ mkBillingService "p" "billing_export" none true with
            cachedTableName := some "gcp_billing_export_v1_A" }) ⟨2025, 0⟩
        ⟨true, Except.ok ⟨none⟩,
          Except.ok ⟨some [⟨[⟨some "12"⟩, ⟨some "0"⟩, ⟨some "50"⟩, ⟨some "200"⟩,
            ⟨some "USD"⟩]⟩]⟩⟩).1 =
      Except.ok
        { currency := "USD", amount := parseFloat "12", lastMonthAmount := parseFloat "0",
          last3MonthsAmount := parseFloat "50", yearlyAmount := parseFloat "200",
          lastUpdated := ⟨2025, 0⟩ } :=
  claim_C1 ({ mkBillingService "p" "billing_export" none true with
      cachedTableName := some "gcp_billing_export_v1_A" }) "gcp_billing_export_v1_A"
    ⟨2025, 0⟩ (Except.ok ⟨none⟩) "12" "0" "50" "200" "USD" [] [] rfl

/-- C2: a response with zero rows, and a response whose first row has fewer
than five field slots, both succeed with the all-zero summary in currency
USD. -/
theorem claim_C2 (s : BillingState) (tname : String) (now : DateUTC)
    (listing : Except String TableListing) (qr : QueryResponse)
    (hcache : s.cachedTableName = some tname)
    (hrows : qr.rows = none ∨ qr.rows = some [] ∨
      ∃ row rest, qr.rows = some (row :: rest) ∧ row.f.length < 5) :
    (fetchCurrentMonthCost s now ⟨true, listing, Except.ok qr⟩).1 =
      Except.ok
        { currency := "USD", amount := JSNum.num 0, lastMonthAmount := JSNum.num 0,
          last3MonthsAmount := JSNum.num 0, yearlyAmount := JSNum.num 0,
          lastUpdated := now } := by
  have hd : discoverBillingTableName s true listing = ⟨Except.ok tname, s, false⟩ := by
    unfold discoverBillingTableName
    rw [hcache]
  unfold fetchCurrentMonthCost
  dsimp only
  rw [hd]
  dsimp only
  rcases hrows with h | h | ⟨row, rest, h, hlen⟩
  · rw [h]
    rfl
  · rw [h]
    rfl
  · rw [h]
    dsimp only
    rw [if_neg (show ¬ (5 ≤ row.f.length) by omega)]
    rfl

/-- C2 witness: a concrete zero-row response produces the fallback
summary. -/
theorem claim_C2_witness :
    (fetchCurrentMonthCost
        ({ mkBillingService "p" "billing_export" none true with
            cachedTableName := some "gcp_billing_export_v1_A" }) ⟨2025, 0⟩
        ⟨true, Except.ok ⟨none⟩, Except.ok ⟨some []⟩⟩).1 =
      Except.ok
        { currency := "USD", amount := JSNum.num 0, lastMonthAmount := JSNum.num 0,
          last3MonthsAmount := JSNum.num 0, yearlyAmount := JSNum.num 0,
          lastUpdated := ⟨2025, 0⟩ } :=
  claim_C2 ({ mkBillingService "p" "billing_export" none true with
      cachedTableName := some "gcp_billing_export_v1_A" }) "gcp_billing_export_v1_A"
    ⟨2025, 0⟩ (Except.ok ⟨none⟩) ⟨some []⟩ rfl (Or.inr (Or.inl rfl))

/-- C6 (amended): for a first row with at least five field slots the fetch
succeeds and maps each slot through the null fallbacks of the source: a
null amount slot parses as the string "0" and therefore maps to the number
0, a present amount slot maps to `parseFloat` of its string — NaN when the
string is non-numeric, with the fetch still succeeding — and a null
currency slot maps to the literal "USD". -/
theorem claim_C6 (s : BillingState) (tname : String) (now : DateUTC)
    (listing : Except String TableListing) (c0 c1 c2 c3 c4 : FieldCell)
    (moreCells : List FieldCell) (moreRows : List QueryRow)
    (hcache : s.cachedTableName = some tname) :
    (fetchCurrentMonthCost s now
        ⟨true, listing, Except.ok ⟨some (⟨[c0, c1, c2, c3, c4] ++ moreCells⟩ :: moreRows)⟩⟩).1 =
      Except.ok
        { currency := c4.v.getD "USD", amount := parseFloat (c0.v.getD "0"),
          lastMonthAmount := parseFloat (c1.v.getD "0"),
          last3MonthsAmount := parseFloat (c2.v.getD "0"),
          yearlyAmount := parseFloat (c3.v.getD "0"), lastUpdated := now } ∧
    (∀ c : FieldCell, c.v = none → parseFloat (c.v.getD "0") = JSNum.num 0) ∧
    (∀ c : FieldCell, c.v = none → c.v.getD "USD" = "USD") ∧
    (∀ (c : FieldCell) (str : String), c.v = some str →
      parseFloat (c.v.getD "0") = parseFloat str) := by
  refine ⟨?_, ?_, ?_, ?_⟩
  · have hd : discoverBillingTableName s true listing = ⟨Except.ok tname, s, false⟩ := by
      unfold discoverBillingTableName
      rw [hcache]
    have hlen : 5 ≤ (([c0, c1, c2, c3, c4] : List FieldCell) ++ moreCells).length := by
      simp [List.length_append]
    unfold fetchCurrentMonthCost
    dsimp only
    rw [hd]
    dsimp only
    rw [if_pos hlen]
    rfl
  · intro c hc
    rw [hc]
    exact parseFloat_zero
  · intro c hc
    rw [hc]
    rfl
  · intro c str hc
    rw [hc]
    rfl

/-- C6 counterexample: with the non-numeric string "abc" in amount slot 0,
the fetch still succeeds but the amount is NaN, not the 0 the claim
states. -/
theorem claim_C6_counterexample :
    (fetchCurrentMonthCost
        ({ mkBillingService "p" "billing_export" none true with
            cachedTableName := some "gcp_billing_export_v1_A" }) ⟨2025, 0⟩
        ⟨true, Except.ok ⟨none⟩,
          Except.ok ⟨some [⟨[⟨some "abc"⟩, ⟨some "1"⟩, ⟨some "2"⟩, ⟨some "3"⟩,
            ⟨some "USD"⟩]⟩]⟩⟩).1 =
      Except.ok
        { currency := "USD", amount := JSNum.nan, lastMonthAmount := JSNum.num 1,
          last3MonthsAmount := JSNum.num 2, yearlyAmount := JSNum.num 3,
          lastUpdated := ⟨2025, 0⟩ } ∧
    JSNum.nan ≠ JSNum.num 0 :=
  ⟨rfl, by decide⟩

/-- C6 witness: a concrete row with null slots in the previous-month amount
and the currency position maps them to 0 and "USD" while a present slot is
parsed. -/
theorem claim_C6_witness :
    (fetchCurrentMonthCost
        ({ mkBillingService "p" "billing_export" none true with
            cachedTableName := some "gcp_billing_export_v1_A" }) ⟨2025, 0⟩
        ⟨true, Except.ok ⟨none⟩,
          Except.ok ⟨some [⟨[⟨some "12.34"⟩, ⟨none⟩, ⟨some "50"⟩, ⟨some "200"⟩, ⟨none⟩]⟩]⟩⟩).1 =
      Except.ok
        { currency := "USD", amount := parseFloat "12.34",
          lastMonthAmount := parseFloat "0", last3MonthsAmount := parseFloat "50",
          yearlyAmount := parseFloat "200", lastUpdated := ⟨2025, 0⟩ } :=
  (claim_C6 ({ mkBillingService "p" "billing_export" none true with
      cachedTableName := some "gcp_billing_export_v1_A" }) "gcp_billing_export_v1_A"
    ⟨2025, 0⟩ (Except.ok ⟨none⟩) ⟨some "12.34"⟩ ⟨none⟩ ⟨some "50"⟩ ⟨some "200"⟩ ⟨none⟩
    [] [] rfl).1

/-! ## Decimal-length machinery for the period keys -/

/-- The length of the string of a character list is its list length. -/
lemma length_asString (l : List Char) : (List.asString l).length = l.length := rfl

/-- Exact length of the digit accumulator of `Nat.repr`: with enough fuel it
produces one character per decimal digit on top of the accumulator. -/
lemma toDigitsCore_length_eq (f : Nat) :
    ∀ (n : Nat) (ds : List Char), n < 10 ^ f → 0 < f →
      (Nat.toDigitsCore 10 f n ds).length = Nat.log 10 n + 1 + ds.length := by
  induction f with
  | zero => intro n ds _ hf; exact absurd hf (by omega)
  | succ f ih =>
    intro n ds hlt _
    simp only [Nat.toDigitsCore]
    by_cases h10 : n / 10 = 0
    · have hlog : Nat.log 10 n = 0 := by
        have hn : n < 10 := by omega
        simp [Nat.log_eq_zero_iff, hn]
      simp [h10, hlog]
      omega
    · have hn10 : 10 ≤ n := by omega
      have hf2 : 0 < f := by
        by_contra h0
        have hf0 : f = 0 := by omega
        rw [hf0] at hlt
        norm_num at hlt
        omega
      have hlt2 : n / 10 < 10 ^ f := by
        rw [Nat.div_lt_iff_lt_mul (by norm_num : 0 < 10)]
        calc n < 10 ^ (f + 1) := hlt
          _ = 10 ^ f * 10 := by rw [Nat.pow_succ]
      rw [if_neg h10, ih (n / 10) (Nat.digitChar (n % 10) :: ds) hlt2 hf2]
      have hlog : Nat.log 10 (n / 10) = Nat.log 10 n - 1 := Nat.log_div_base 10 n
      have hpos : 0 < Nat.log 10 n := Nat.log_pos (by norm_num) hn10
      simp [List.length_cons, hlog]
      omega

/-- The decimal representation of a natural number has one character per
digit. -/
lemma repr_length_eq (n : Nat) : (Nat.repr n).length = Nat.log 10 n + 1 := by
  have h : n < 10 ^ (n + 1) :=
    calc n < 10 ^ n := Nat.lt_pow_self (by norm_num) n
      _ ≤ 10 ^ (n + 1) := Nat.pow_le_pow_right (by norm_num) (Nat.le_succ n)
  have hlen := toDigitsCore_length_eq (n + 1) n [] h (Nat.succ_pos n)
  unfold Nat.repr Nat.toDigits
  rw [length_asString, hlen]
  simp

/-- A natural number between 1000 and 9999 prints with four characters. -/
lemma repr_length_four (n : Nat) (h1 : 1000 ≤ n) (h2 : n ≤ 9999) :
    (Nat.repr n).length = 4 := by
  have e3 : (10 : Nat) ^ 3 = 1000 := by norm_num
  have e4 : (10 : Nat) ^ 4 = 10000 := by norm_num
  have hlog : Nat.log 10 n = 3 :=
    Nat.log_eq_of_pow_le_of_lt_pow (e3 ▸ h1) (e4 ▸ (by omega : n < 10000))
  rw [repr_length_eq, hlog]

/-- Printing a natural number cast to `Int` is printing the natural. -/
lemma toString_intOfNat (n : Nat) : toString ((n : Nat) : Int) = Nat.repr n := rfl

/-- An integer between 1000 and 9999 prints with four characters. -/
lemma intToString_length_four (y : Int) (h1 : 1000 ≤ y) (h2 : y ≤ 9999) :
    (toString y).length = 4 := by
  lift y to ℕ using (by omega : (0 : Int) ≤ y) with n hn
  rw [toString_intOfNat]
  exact repr_length_four n (by exact_mod_cast h1) (by exact_mod_cast h2)

/-- A 1-based month number zero-pads to exactly two characters. -/
lemma padStart2_toString_length (m : Nat) (h1 : 1 ≤ m) (h2 : m ≤ 12) :
    (padStart2 (toString m)).length = 2 := by
  interval_cases m <;> decide

/-- A period key of a four-digit year is a six-character string. -/
lemma periodKey_length (y : Int) (m : Nat) (hy1 : 1000 ≤ y) (hy2 : y ≤ 9999)
    (hm1 : 1 ≤ m) (hm2 : m ≤ 12) : (periodKey y m).length = 6 := by
  unfold periodKey
  rw [String.length_append, intToString_length_four y hy1 hy2,
    padStart2_toString_length m hm1 hm2]

/-! ## Date-normalization lemmas for the period keys -/

/-- Characterization of the date normalization outside the two-digit-year
range: the unique year and 0-based month with the same month total. -/
lemma jsDateYearMonth_eq (yearArg monthIndex y2 r : Int)
    (hy : ¬(0 ≤ yearArg ∧ yearArg ≤ 99))
    (h : yearArg * 12 + monthIndex = y2 * 12 + r) (hr0 : 0 ≤ r) (hr : r < 12) :
    jsDateYearMonth yearArg monthIndex = (y2, r) := by
  unfold jsDateYearMonth jsDateMonthsTotal
  rw [if_neg hy]
  have h1 : (yearArg * 12 + monthIndex) / 12 = y2 := by omega
  have h2 : (yearArg * 12 + monthIndex) % 12 = r := by omega
  rw [h1, h2]

/-- Month bounds of one backward step. -/
lemma predYM_bounds (y : Int) (m : Nat) (h1 : 1 ≤ m) (h2 : m ≤ 12) :
    y - 1 ≤ (predYM (y, m)).1 ∧ (predYM (y, m)).1 ≤ y ∧
    1 ≤ (predYM (y, m)).2 ∧ (predYM (y, m)).2 ≤ 12 := by
  unfold predYM
  split <;> dsimp only <;> omega

/-- Month bounds of three backward steps. -/
lemma predYM3_bounds (y : Int) (m : Nat) (h1 : 1 ≤ m) (h2 : m ≤ 12) :
    y - 1 ≤ (predYM (predYM (predYM (y, m)))).1 ∧
    (predYM (predYM (predYM (y, m)))).1 ≤ y ∧
    1 ≤ (predYM (predYM (predYM (y, m)))).2 ∧
    (predYM (predYM (predYM (y, m)))).2 ≤ 12 := by
  interval_cases m <;> simp [predYM]

/-- The previous-month key is the key of the previous calendar month. -/
lemma lastMonthKey_eq (now : DateUTC) (hm : now.utcMonth < 12)
    (hy : 100 ≤ now.utcFullYear) :
    lastMonthKey now =
      periodKey (predYM (now.utcFullYear, now.utcMonth + 1)).1
        (predYM (now.utcFullYear, now.utcMonth + 1)).2 := by
  obtain ⟨y, m0⟩ := now
  dsimp only at hm hy ⊢
  rcases Nat.eq_zero_or_pos m0 with h0 | h0
  · subst h0
    have hp : jsDateYearMonth y (((0 : Nat) : Int) + 1 - 2) = (y - 1, 11) :=
      jsDateYearMonth_eq y _ (y - 1) 11 (by omega) (by push_cast; ring) (by omega) (by omega)
    unfold lastMonthKey
    dsimp only
    rw [hp]
    simp [predYM, periodKey]
    rfl
  · have hp : jsDateYearMonth y ((m0 : Int) + 1 - 2) = (y, (m0 : Int) - 1) :=
      jsDateYearMonth_eq y _ y ((m0 : Int) - 1) (by omega) (by ring)
        (by omega) (by omega)
    have hpred : predYM (y, m0 + 1) = (y, m0) := by
      unfold predYM
      rw [if_neg (show ¬((y, m0 + 1).2 ≤ 1) by dsimp only; omega)]
      dsimp only
      simp
    unfold lastMonthKey
    dsimp only
    rw [hp, hpred]
    have harg : ((m0 : Int) - 1) + 1 = ((m0 : Nat) : Int) := by ring
    rw [show ((y, (m0 : Int) - 1).2 + 1) = ((m0 : Nat) : Int) from harg]
    rfl

/-- The trailing-start key is the key of the month three calendar months
before the current one. -/
lemma threeMonthsAgoKey_eq (now : DateUTC) (hm : now.utcMonth < 12)
    (hy : 100 ≤ now.utcFullYear) :
    threeMonthsAgoKey now =
      periodKey (predYM (predYM (predYM (now.utcFullYear, now.utcMonth + 1)))).1
        (predYM (predYM (predYM (now.utcFullYear, now.utcMonth + 1)))).2 := by
  obtain ⟨y, m0⟩ := now
  dsimp only at hm hy ⊢
  have hcases : m0 = 0 ∨ m0 = 1 ∨ m0 = 2 ∨ 3 ≤ m0 := by omega
  rcases hcases with h0 | h0 | h0 | h0
  · subst h0
    have hp : jsDateYearMonth y (((0 : Nat) : Int) + 1 - 4) = (y - 1, 9) :=
      jsDateYearMonth_eq y _ (y - 1) 9 (by omega) (by push_cast; ring) (by omega) (by omega)
    unfold threeMonthsAgoKey
    dsimp only
    rw [hp]
    simp [predYM, periodKey]
    rfl
  · subst h0
    have hp : jsDateYearMonth y (((1 : Nat) : Int) + 1 - 4) = (y - 1, 10) :=
      jsDateYearMonth_eq y _ (y - 1) 10 (by omega) (by push_cast; ring) (by omega) (by omega)
    unfold threeMonthsAgoKey
    dsimp only
    rw [hp]
    simp [predYM, periodKey]
    rfl
  · subst h0
    have hp : jsDateYearMonth y (((2 : Nat) : Int) + 1 - 4) = (y - 1, 11) :=
      jsDateYearMonth_eq y _ (y - 1) 11 (by omega) (by push_cast; ring) (by omega) (by omega)
    unfold threeMonthsAgoKey
    dsimp only
    rw [hp]
    simp [predYM, periodKey]
    rfl
  · have hp : jsDateYearMonth y ((m0 : Int) + 1 - 4) = (y, (m0 : Int) - 3) :=
      jsDateYearMonth_eq y _ y ((m0 : Int) - 3) (by omega) (by ring) (by omega) (by omega)
    have hp1 : predYM (y, m0 + 1) = (y, m0) := by
      unfold predYM
      rw [if_neg (show ¬((y, m0 + 1).2 ≤ 1) by dsimp only; omega)]
      dsimp only
      simp
    have hp2 : predYM (y, m0) = (y, m0 - 1) := by
      unfold predYM
      rw [if_neg (show ¬((y, m0).2 ≤ 1) by dsimp only; omega)]
    have hp3 : predYM (y, m0 - 1) = (y, m0 - 2) := by
      unfold predYM
      rw [if_neg (show ¬((y, m0 - 1).2 ≤ 1) by dsimp only; omega)]
      dsimp only
      refine congrArg (Prod.mk y) ?_
      omega
    have hpred : predYM (predYM (predYM (y, m0 + 1))) = (y, m0 - 2) := by
      rw [hp1, hp2, hp3]
    unfold threeMonthsAgoKey
    dsimp only
    rw [hp, hpred]
    have harg : ((y, (m0 : Int) - 3).2 + 1) = (((m0 - 2 : Nat) : Nat) : Int) := by
      dsimp only
      omega
    rw [harg]
    rfl

/-- C3 (amended): for every now whose UTC year has four digits (with
January through March of year 1001 onward so that the rolled-back keys
also keep four digit years), the three period keys are six-character
strings rendering `YYYYMM` of, respectively, the current month, the
immediately preceding calendar month, and the month three calendar months
back, with year rollover handled; in particular for 2025-01 (UTC) they are
"202501", "202412" and "202410". -/
theorem claim_C3 :
    (∀ now : DateUTC, now.utcMonth < 12 → 1001 ≤ now.utcFullYear →
      now.utcFullYear ≤ 9999 →
      currentMonthKey now = periodKey now.utcFullYear (now.utcMonth + 1) ∧
      lastMonthKey now = periodKey (predYM (now.utcFullYear, now.utcMonth + 1)).1
        (predYM (now.utcFullYear, now.utcMonth + 1)).2 ∧
      threeMonthsAgoKey now =
        periodKey (predYM (predYM (predYM (now.utcFullYear, now.utcMonth + 1)))).1
          (predYM (predYM (predYM (now.utcFullYear, now.utcMonth + 1)))).2 ∧
      (currentMonthKey now).length = 6 ∧ (lastMonthKey now).length = 6 ∧
      (threeMonthsAgoKey now).length = 6) ∧
    currentMonthKey ⟨2025, 0⟩ = "202501" ∧ lastMonthKey ⟨2025, 0⟩ = "202412" ∧
    threeMonthsAgoKey ⟨2025, 0⟩ = "202410" := by
  refine ⟨?_, by decide, by decide, by decide⟩
  intro now hm hy1 hy2
  have hB := lastMonthKey_eq now hm (by omega)
  have hC := threeMonthsAgoKey_eq now hm (by omega)
  have hb1 := predYM_bounds now.utcFullYear (now.utcMonth + 1) (by omega) (by omega)
  have hb3 := predYM3_bounds now.utcFullYear (now.utcMonth + 1) (by omega) (by omega)
  refine ⟨rfl, hB, hC, ?_, ?_, ?_⟩
  · exact periodKey_length now.utcFullYear (now.utcMonth + 1)
      (by omega) (by omega) (by omega) (by omega)
  · rw [hB]
    exact periodKey_length _ _ (by omega) (by omega) (by omega) (by omega)
  · rw [hC]
    exact periodKey_length _ _ (by omega) (by omega) (by omega) (by omega)

/-- C3 counterexample: the claim quantifies over every now, but for a now
in the year 999 the current period key has five characters, not six. -/
theorem claim_C3_counterexample : ¬ ((currentMonthKey ⟨999, 4⟩).length = 6) := by
  decide

/-- C3 witness: the amended statement applied at 2025-01 (UTC). -/
theorem claim_C3_witness :
    currentMonthKey ⟨2025, 0⟩ = periodKey 2025 1 ∧
    (lastMonthKey ⟨2025, 0⟩).length = 6 :=
  ⟨(claim_C3.1 ⟨2025, 0⟩ (by decide) (by decide) (by decide)).1,
    (claim_C3.1 ⟨2025, 0⟩ (by decide) (by decide) (by decide)).2.2.2.2.1⟩

end BillingWatcher
